import Mathlib

/-!
Shallow embedding of the raster rendering pipeline of django-spillway
(`spillway/renderers.py`): the GDAL-backed renderers `BaseGDALRenderer`
and `GeoTIFFZipRenderer`, together with the `os.path` string helpers
they rely on.  Paths and strings are `List Char`, file contents are
`List Nat` (byte values), the external raster codec (greenwich) is a
record of functions, and the Django renderer context / response is an
explicit option-valued state threaded through the renderers.
-/

namespace Spillway

abbrev Bytes := List Nat

/-- Index of the last occurrence of `c` in `p` (accumulator form),
mirroring Python's `str.rfind`. -/
def lastIdxAux (c : Char) : List Char → Nat → Option Nat → Option Nat
  | [], _, acc => acc
  | x :: xs, i, acc => lastIdxAux c xs (i + 1) (if x = c then some i else acc)

/-- `p.rfind(c)`: index of the last occurrence of `c`, `none` when absent. -/
def lastIdx (p : List Char) (c : Char) : Option Nat :=
  lastIdxAux c p 0 none

/-- `posixpath.splitext`: split off the extension at the last dot of the
basename, unless every character of the basename before that dot is itself
a dot (so a leading-dot file like `.tif` has no extension). -/
def splitext (p : List Char) : List Char × List Char :=
  match lastIdx p '.' with
  | none => (p, [])
  | some d =>
    let start := match lastIdx p '/' with
      | none => 0
      | some s => s + 1
    if d < start then (p, [])
    else if ((p.take d).drop start).any (fun ch => ch ≠ '.') then
      (p.take d, p.drop d)
    else (p, [])

/-- `posixpath.basename`: everything after the last `/`. -/
def osPathBasename (p : List Char) : List Char :=
  match lastIdx p '/' with
  | none => p
  | some s => p.drop (s + 1)

/-- `posixpath.join` for the relative second argument used here. -/
def pathJoin (a b : List Char) : List Char := a ++ '/' :: b

/-- `BaseGDALRenderer.file_ext`: `os.extsep + os.path.splitext(format)[0]`
(for format `"tif"` this is `".tif"`, for `"tif.zip"` also `".tif"`). -/
def file_ext (format : List Char) : List Char :=
  '.' :: (splitext format).1

/-- `BaseGDALRenderer.basename`: stem of the item path's basename plus
`file_ext`. -/
def basename (format : List Char) (itemPath : List Char) : List Char :=
  (splitext (osPathBasename itemPath)).1 ++ file_ext format

/-- Argument the renderer passes to `driver_for_path`:
`file_ext.replace(os.extsep, '')`. -/
def driverName (format : List Char) : List Char :=
  (file_ext format).filter (fun ch => ch ≠ '.')

/-- An input asset descriptor: the dict `{'path': ...}` handed to the
renderer. -/
structure Item where
  path : List Char
deriving Repr, DecidableEq

/-- Result of converting one item: either the original file path
(passthrough) or an in-memory byte buffer read back from `MemFileIO`. -/
inductive RenderedBuffer
  | filePath (p : List Char)
  | inMemory (b : Bytes)
deriving Repr, DecidableEq

/-- Exceptions that can escape the rendering pipeline. -/
inductive RenderErr
  | clipEmpty
  | assetNotFound
  | codecErr
  | indexErr
deriving Repr, DecidableEq

/-- Observable invocations of the external raster codec, tagged with the
item path they were invoked for. -/
inductive CodecEvent
  | opened (p : List Char)
  | clipped (p : List Char)
  | saved (p : List Char)
  | copied (p : List Char)
deriving Repr, DecidableEq

/-- The external raster codec capability (greenwich `Raster`, `Geometry`,
driver): open a raster, clip it to a geometry, encode a raster to bytes,
or copy a file straight into a memory buffer. `R` is the raster handle
type and `G` the normalized geometry type. -/
structure Codec (R G : Type) where
  openR : List Char → Except RenderErr R
  clip : R → G → Except RenderErr R
  save : R → List Char → Bytes
  copy : List Char → Bytes

/-- Header values stored on the Django response object. -/
inductive HVal
  | str (s : List Char)
  | num (n : Nat)
deriving Repr, DecidableEq

/-- A response object: either a working header store, or one whose item
assignment raises `TypeError`/`KeyError` (which the renderer swallows). -/
inductive Resp
  | store (headers : List (List Char × HVal))
  | rejecting
deriving Repr, DecidableEq

/-- The view inside the renderer context; `clean_params().get('g')` yields
the optional clip geometry. -/
structure ViewCtx (G : Type) where
  g : Option G
deriving Repr, DecidableEq

/-- The renderer context dict: an optional `view` entry and an optional
`response` entry. The context as a whole may be `None`. -/
structure RCtx (G : Type) where
  view : Option (ViewCtx G)
  response : Option Resp
deriving Repr, DecidableEq

/-- `view and view.clean_params().get('g')` after `renderer_context or {}`:
the clip geometry reachable from the context. -/
def geomOf {G : Type} : Option (RCtx G) → Option G
  | none => none
  | some c =>
    match c.view with
    | none => none
    | some v => v.g

/-- The view reachable from the context (for stating that two contexts
agree on everything the conversion itself reads). -/
def viewOf {G : Type} : Option (RCtx G) → Option (ViewCtx G)
  | none => none
  | some c => c.view

/-- `response[key] = value` on a working header store: overwrite the
existing entry or append. -/
def setHeader (hs : List (List Char × HVal)) (k : List Char) (v : HVal) :
    List (List Char × HVal) :=
  match hs with
  | [] => [(k, v)]
  | (k', v') :: rest =>
    if k' = k then (k, v) :: rest else (k', v') :: setHeader rest k v

/-- Header lookup. -/
def getHeader (hs : List (List Char × HVal)) (k : List Char) : Option HVal :=
  match hs with
  | [] => none
  | (k', v') :: rest => if k' = k then some v' else getHeader rest k

/-- The `Content-Disposition` value
`'attachment; filename=%s.%s' % (name, format)`. -/
def contentDisposition (format name : List Char) : List Char :=
  ("attachment; filename=".toList) ++ name ++ ('.' :: format)

/-- `BaseGDALRenderer.set_filename`: store `Content-Disposition`, silently
skipping on a missing context, missing response or rejecting response
(the code catches `KeyError` and `TypeError`). -/
def set_filename {G : Type} (format name : List Char) (ctx : Option (RCtx G)) :
    Option (RCtx G) :=
  match ctx with
  | none => none
  | some c =>
    match c.response with
    | none => some c
    | some .rejecting => some c
    | some (.store hs) =>
      some { c with
        response := some (.store (setHeader hs ("Content-Disposition".toList)
          (.str (contentDisposition format name)))) }

/-- `BaseGDALRenderer.set_response_length`: store `Content-Length`, with
the same silent skipping. -/
def set_response_length {G : Type} (length : Nat) (ctx : Option (RCtx G)) :
    Option (RCtx G) :=
  match ctx with
  | none => none
  | some c =>
    match c.response with
    | none => some c
    | some .rejecting => some c
    | some (.store hs) =>
      some { c with
        response := some (.store (setHeader hs ("Content-Length".toList)
          (.num length))) }

/-- The passthrough condition of `_render_items`:
`not geom and imgpath.endswith(self.file_ext)`. -/
def passthrough_decide (format : List Char) (geomPresent : Bool)
    (path : List Char) : Bool :=
  !geomPresent && (file_ext format).isSuffixOf path

/-- One iteration of the `_render_items` loop for a single item:
passthrough (append the path itself), or open/clip/save when a geometry
is present, or `driver.copy` into a memory buffer otherwise.  Alongside
the resulting buffer it reports which codec operations were invoked. -/
def renderItem {R G : Type} (c : Codec R G) (format : List Char)
    (geom : Option G) (item : Item) :
    Except RenderErr (RenderedBuffer × List CodecEvent) :=
  if passthrough_decide format geom.isSome item.path then
    .ok (.filePath item.path, [])
  else
    match geom with
    | some g =>
      match c.openR item.path with
      | .error e => .error e
      | .ok r =>
        match c.clip r g with
        | .error e => .error e
        | .ok clipped =>
          .ok (.inMemory (c.save clipped (driverName format)),
               [.opened item.path, .clipped item.path, .saved item.path])
    | none => .ok (.inMemory (c.copy item.path), [.copied item.path])

/-- The `_render_items` loop over the whole batch, aborting at the first
failing item and concatenating the codec-event logs. -/
def renderItems {R G : Type} (c : Codec R G) (format : List Char)
    (geom : Option G) :
    List Item → Except RenderErr (List RenderedBuffer × List CodecEvent)
  | [] => .ok ([], [])
  | item :: rest =>
    match renderItem c format geom item with
    | .error e => .error e
    | .ok (buf, ev) =>
      match renderItems c format geom rest with
      | .error e => .error e
      | .ok (bufs, evs) => .ok (buf :: bufs, ev ++ evs)

/-- `BaseGDALRenderer._render_items`: extract the clip geometry from the
renderer context and run the conversion loop. -/
def render_items {R G : Type} (c : Codec R G) (format : List Char)
    (ctx : Option (RCtx G)) (items : List Item) :
    Except RenderErr (List RenderedBuffer × List CodecEvent) :=
  renderItems c format (geomOf ctx) items

/-- Normalization at the top of both `render` methods:
`if isinstance(data, dict): data = [data]`. -/
def normalizeData : Sum Item (List Item) → List Item
  | .inl d => [d]
  | .inr l => l

/-- `BaseGDALRenderer.render`: normalize the input, set the suggested
filename from the first item, convert the whole batch, and return the
first buffer — opening it from disk (and reporting its size) when it is
a file path, else returning the stored path's characters as the body,
else the in-memory bytes.  The result carries the response body, the
final renderer context and the codec-event log. -/
def render {R G : Type} (c : Codec R G) (fs : List Char → Option Bytes)
    (format : List Char) (data : Sum Item (List Item))
    (ctx : Option (RCtx G)) :
    Except RenderErr (Bytes × Option (RCtx G) × List CodecEvent) :=
  let items := normalizeData data
  match items with
  | [] => .error .indexErr
  | first :: _ =>
    let ctx1 := set_filename format (basename format first.path) ctx
    match render_items c format ctx1 items with
    | .error e => .error e
    | .ok (bufs, evs) =>
      match bufs with
      | [] => .error .indexErr
      | img :: _ =>
        match img with
        | .filePath p =>
          match fs p with
          | some bts =>
            .ok (bts, set_response_length bts.length ctx1, evs)
          | none => .ok (p.map Char.toNat, ctx1, evs)
        | .inMemory b => .ok (b, ctx1, evs)

/-- A zip archive entry: its archive name and its content bytes. -/
structure ZipEntry where
  name : List Char
  content : Bytes
deriving Repr, DecidableEq

/-- One iteration of the zip loop:
`zf.write(raster, arcname)` when the rendered value is a file path
(failing when the file cannot be read), and
`zf.writestr(arcname, raster)` when it is in-memory bytes. -/
def zipEntryOf (fs : List Char → Option Bytes) (arcname : List Char) :
    RenderedBuffer → Except RenderErr ZipEntry
  | .filePath p =>
    match fs p with
    | some bts => .ok ⟨arcname, bts⟩
    | none => .error .assetNotFound
  | .inMemory b => .ok ⟨arcname, b⟩

/-- The bytes a rendered buffer stands for: the stored file's contents
for a path, the buffer itself for in-memory data. -/
def bufferBytes (fs : List Char → Option Bytes) : RenderedBuffer → Option Bytes
  | .filePath p => fs p
  | .inMemory b => some b

/-- The zip loop `for raster, attrs in zip(rendered, data)`: pair each
rendered buffer with its item, derive the entry name
`os.path.join(arcdirname, basename(attrs))`, and write the entry. -/
def assembleEntries (fs : List Char → Option Bytes)
    (format arcdirname : List Char) :
    List RenderedBuffer → List Item → Except RenderErr (List ZipEntry)
  | [], _ => .ok []
  | _, [] => .ok []
  | r :: rs, it :: its =>
    match zipEntryOf fs (pathJoin arcdirname (basename format it.path)) r with
    | .error e => .error e
    | .ok e =>
      match assembleEntries fs format arcdirname rs its with
      | .error e => .error e
      | .ok es => .ok (e :: es)

/-- Per-entry bytes written into the zip stream (local header with the
name, then the content). -/
def encodeEntry (e : ZipEntry) : Bytes :=
  e.name.map Char.toNat ++ e.content

/-- The central directory appended when the `with zipfile.ZipFile` block
closes. -/
def centralDirectory (es : List ZipEntry) : Bytes :=
  (es.map (fun e => e.name.map Char.toNat)).flatten ++ [es.length]

/-- The whole temporary zip file after the `ZipFile` is closed; `fp.tell()`
at that point is its length. -/
def zipFileBytes (es : List ZipEntry) : Bytes :=
  (es.map encodeEntry).flatten ++ centralDirectory es

/-- `GeoTIFFZipRenderer.render`: normalize, convert every item, set the
archive filename from `arcdirname`, write one entry per rendered buffer
into a zip file, report `fp.tell()` as the response length, and return
the whole file. -/
def zipRender {R G : Type} (c : Codec R G) (fs : List Char → Option Bytes)
    (format arcdirname : List Char) (data : Sum Item (List Item))
    (ctx : Option (RCtx G)) :
    Except RenderErr (Bytes × Option (RCtx G) × List CodecEvent) :=
  let items := normalizeData data
  match render_items c format ctx items with
  | .error e => .error e
  | .ok (bufs, evs) =>
    let ctx1 := set_filename format arcdirname ctx
    match assembleEntries fs format arcdirname bufs items with
    | .error e => .error e
    | .ok es =>
      let fileBytes := zipFileBytes es
      .ok (fileBytes, set_response_length fileBytes.length ctx1, evs)

/-- A rectangular extent, for modelling raster and geometry footprints. -/
structure Box where
  xmin : Int
  xmax : Int
  ymin : Int
  ymax : Int
deriving Repr, DecidableEq

/-- Intersection of two extents. -/
def Box.inter (a b : Box) : Box :=
  ⟨max a.xmin b.xmin, min a.xmax b.xmax, max a.ymin b.ymin, min a.ymax b.ymax⟩

/-- An extent with no area. -/
def Box.degenerate (b : Box) : Bool :=
  b.xmax ≤ b.xmin || b.ymax ≤ b.ymin

/-- Modelled from the spec: the clip operation of the external raster
codec (greenwich `Raster.clip`, absent from this repository) produces
"a derived raster limited to the intersection of source extent and clip
geometry (empty intersection is a `ClipEmptyError`, not a zero-sized
buffer)". -/
def specClip (r g : Box) : Except RenderErr Box :=
  if (r.inter g).degenerate then .error .clipEmpty else .ok (r.inter g)

/-- A codec over extent boxes whose clip follows the spec's clip
contract; opening reads the raster's extent from a store `rs`. -/
def specCodec (rs : List Char → Option Box) (enc : Box → List Char → Bytes)
    (cp : List Char → Bytes) : Codec Box Box where
  openR p :=
    match rs p with
    | some b => .ok b
    | none => .error .assetNotFound
  clip := specClip
  save := enc
  copy := cp

/-- A trivial concrete codec used to evaluate the pipeline on closed
inputs. -/
def witCodec : Codec Nat Nat where
  openR _ := .ok 0
  clip r _ := .ok r
  save _ _ := [7]
  copy p := 9 :: p.map Char.toNat

/-- A one-file filesystem: `x.tif` holds bytes `[3, 4]`. -/
def fsX : List Char → Option Bytes :=
  fun p => if p = "x.tif".toList then some [3, 4] else none

/-- A two-file filesystem whose files share the basename `x.tif`. -/
def fsDup : List Char → Option Bytes :=
  fun p =>
    if p = "a/x.tif".toList then some [1]
    else if p = "b/x.tif".toList then some [2]
    else none

/-- Extract the body and event log of a render result, forgetting the
response context. -/
def outBody {G : Type} (x : Bytes × Option (RCtx G) × List CodecEvent) :
    Bytes × List CodecEvent :=
  (x.1, x.2.2)

/-- Header value stored on the context's response, when the response is a
working store. -/
def headerOf {G : Type} (ctx : Option (RCtx G)) (k : List Char) : Option HVal :=
  match ctx with
  | some ⟨_, some (.store hs)⟩ => getHeader hs k
  | _ => none

/-- The archive entries `GeoTIFFZipRenderer.render` writes into the zip
file, recomputed from its inputs. -/
def zipEntriesOf {R G : Type} (c : Codec R G) (fs : List Char → Option Bytes)
    (format arcdirname : List Char) (data : Sum Item (List Item))
    (ctx : Option (RCtx G)) : Except RenderErr (List ZipEntry) :=
  match render_items c format ctx (normalizeData data) with
  | .error e => .error e
  | .ok (bufs, _) => assembleEntries fs format arcdirname bufs (normalizeData data)

theorem geomOf_set_filename {G : Type} (format name : List Char)
    (ctx : Option (RCtx G)) :
    geomOf (set_filename format name ctx) = geomOf ctx := by
  cases ctx with
  | none => rfl
  | some c =>
    obtain ⟨v, resp⟩ := c
    cases resp with
    | none => rfl
    | some r => cases r <;> rfl

theorem viewOf_set_filename {G : Type} (format name : List Char)
    (ctx : Option (RCtx G)) :
    viewOf (set_filename format name ctx) = viewOf ctx := by
  cases ctx with
  | none => rfl
  | some c =>
    obtain ⟨v, resp⟩ := c
    cases resp with
    | none => rfl
    | some r => cases r <;> rfl

theorem geomOf_eq_of_viewOf {G : Type} {a b : Option (RCtx G)}
    (h : viewOf a = viewOf b) : geomOf a = geomOf b := by
  have ha : ∀ x : Option (RCtx G),
      geomOf x = match viewOf x with
        | none => none
        | some v => v.g := by
    intro x
    cases x with
    | none => rfl
    | some c => rfl
  rw [ha a, ha b, h]

theorem getHeader_setHeader_same (hs : List (List Char × HVal))
    (k : List Char) (v : HVal) :
    getHeader (setHeader hs k v) k = some v := by
  induction hs with
  | nil => simp [setHeader, getHeader]
  | cons p rest ih =>
    obtain ⟨k', v'⟩ := p
    by_cases hk : k' = k
    · simp [setHeader, getHeader, hk]
    · simp [setHeader, getHeader, hk, ih]

theorem renderItems_length {R G : Type} (c : Codec R G) (format : List Char)
    (geom : Option G) :
    ∀ (items : List Item) (bufs : List RenderedBuffer) (evs : List CodecEvent),
      renderItems c format geom items = .ok (bufs, evs) →
      bufs.length = items.length := by
  intro items
  induction items with
  | nil =>
    intro bufs evs h
    simp only [renderItems] at h
    obtain ⟨h1, _⟩ := Prod.mk.injEq .. ▸ Except.ok.inj h
    simp [← h1]
  | cons d rest ih =>
    intro bufs evs h
    unfold renderItems at h
    cases h1 : renderItem c format geom d with
    | error e => rw [h1] at h; cases h
    | ok pr =>
      rw [h1] at h
      obtain ⟨buf, ev⟩ := pr
      cases h2 : renderItems c format geom rest with
      | error e => rw [h2] at h; cases h
      | ok pr2 =>
        rw [h2] at h
        obtain ⟨bufs2, evs2⟩ := pr2
        obtain ⟨hb, _⟩ := Prod.mk.injEq .. ▸ Except.ok.inj h
        rw [← hb]
        simp [ih bufs2 evs2 h2]

theorem zipEntryOf_ok {fs : List Char → Option Bytes} {arcname : List Char}
    {buf : RenderedBuffer} {e : ZipEntry}
    (h : zipEntryOf fs arcname buf = .ok e) :
    e.name = arcname ∧ some e.content = bufferBytes fs buf := by
  cases buf with
  | filePath p =>
    cases hf : fs p with
    | none => simp [zipEntryOf, hf] at h
    | some bts =>
      simp only [zipEntryOf, hf] at h
      obtain rfl := Except.ok.inj h
      exact ⟨rfl, by simp [bufferBytes, hf]⟩
  | inMemory b =>
    simp only [zipEntryOf] at h
    obtain rfl := Except.ok.inj h
    exact ⟨rfl, rfl⟩

theorem assembleEntries_names (fs : List Char → Option Bytes)
    (format arcdirname : List Char) :
    ∀ (bufs : List RenderedBuffer) (items : List Item) (es : List ZipEntry),
      bufs.length = items.length →
      assembleEntries fs format arcdirname bufs items = .ok es →
      es.map (fun e => e.name)
          = items.map (fun it => pathJoin arcdirname (basename format it.path))
      ∧ es.length = items.length := by
  intro bufs
  induction bufs with
  | nil =>
    intro items es hl h
    cases items with
    | nil =>
      simp only [assembleEntries] at h
      obtain rfl := Except.ok.inj h
      simp
    | cons it its => simp at hl
  | cons r rs ih =>
    intro items es hl h
    cases items with
    | nil => simp at hl
    | cons it its =>
      unfold assembleEntries at h
      cases h1 : zipEntryOf fs (pathJoin arcdirname (basename format it.path)) r with
      | error e0 => rw [h1] at h; cases h
      | ok e0 =>
        rw [h1] at h
        cases h2 : assembleEntries fs format arcdirname rs its with
        | error e1 => rw [h2] at h; cases h
        | ok es2 =>
          rw [h2] at h
          obtain rfl := Except.ok.inj h
          have hl2 : rs.length = its.length := by simpa using hl
          obtain ⟨hm, hlen⟩ := ih its es2 hl2 h2
          refine ⟨?_, by simp [hlen]⟩
          simp [hm, (zipEntryOf_ok h1).1]

theorem renderItems_copy_all {R G : Type} (c : Codec R G) (format : List Char)
    (items : List Item)
    (hall : ∀ it ∈ items, (file_ext format).isSuffixOf it.path = false) :
    renderItems c format none items
      = .ok (items.map (fun it => .inMemory (c.copy it.path)),
             items.map (fun it => .copied it.path)) := by
  induction items with
  | nil => rfl
  | cons d rest ih =>
    have hd := hall d (List.mem_cons_self d rest)
    have hrest : ∀ it ∈ rest, (file_ext format).isSuffixOf it.path = false :=
      fun it hit => hall it (List.mem_cons_of_mem d hit)
    simp [renderItems, renderItem, passthrough_decide, hd, ih hrest]

theorem render_map_outBody {R G : Type} (c : Codec R G)
    (fs : List Char → Option Bytes) (format : List Char)
    (data : Sum Item (List Item)) (ctx1 ctx2 : Option (RCtx G))
    (h : geomOf ctx1 = geomOf ctx2) :
    (render c fs format data ctx1).map outBody
      = (render c fs format data ctx2).map outBody := by
  unfold render
  cases hni : normalizeData data with
  | nil => rfl
  | cons first rest =>
    have h1 : render_items c format
          (set_filename format (basename format first.path) ctx1) (first :: rest)
        = render_items c format
          (set_filename format (basename format first.path) ctx2) (first :: rest) := by
      unfold render_items
      rw [geomOf_set_filename, geomOf_set_filename, h]
    dsimp only
    rw [h1]
    cases hr : render_items c format
        (set_filename format (basename format first.path) ctx2) (first :: rest) with
    | error e => rfl
    | ok pr =>
      obtain ⟨bufs, evs⟩ := pr
      dsimp only
      cases bufs with
      | nil => rfl
      | cons img rest2 =>
        cases img with
        | filePath p =>
          dsimp only
          cases fs p with
          | some bts => rfl
          | none => rfl
        | inMemory b => rfl

theorem zipRender_map_outBody {R G : Type} (c : Codec R G)
    (fs : List Char → Option Bytes) (format arcdirname : List Char)
    (data : Sum Item (List Item)) (ctx1 ctx2 : Option (RCtx G))
    (h : geomOf ctx1 = geomOf ctx2) :
    (zipRender c fs format arcdirname data ctx1).map outBody
      = (zipRender c fs format arcdirname data ctx2).map outBody := by
  unfold zipRender
  have h1 : render_items c format ctx1 (normalizeData data)
      = render_items c format ctx2 (normalizeData data) := by
    unfold render_items
    rw [h]
  dsimp only
  rw [h1]
  cases hr : render_items c format ctx2 (normalizeData data) with
  | error e => rfl
  | ok pr =>
    obtain ⟨bufs, evs⟩ := pr
    dsimp only
    cases assembleEntries fs format arcdirname bufs (normalizeData data) with
    | error e => rfl
    | ok es => rfl

theorem renderItem_passthrough_iff {R G : Type} (c : Codec R G)
    (format : List Char) (geom : Option G) (item : Item) :
    renderItem c format geom item = .ok (.filePath item.path, [])
      ↔ geom = none ∧ (file_ext format).isSuffixOf item.path = true := by
  cases geom with
  | none =>
    by_cases hs : (file_ext format).isSuffixOf item.path
    · simp [renderItem, passthrough_decide, hs]
    · simp only [renderItem, passthrough_decide, Option.isSome_none, Bool.not_false,
        Bool.true_and, hs, Bool.false_eq_true, if_false]
      constructor
      · intro h
        obtain h2 := Except.ok.inj h
        simp at h2
      · rintro ⟨-, h2⟩
        exact absurd h2 (by simp [hs])
  | some g =>
    constructor
    · intro h
      exfalso
      simp only [renderItem, passthrough_decide, Option.isSome_some, Bool.not_true,
        Bool.false_and, Bool.false_eq_true, if_false] at h
      cases ho : c.openR item.path with
      | error e => rw [ho] at h; cases h
      | ok r =>
        rw [ho] at h
        dsimp only at h
        cases hc : c.clip r g with
        | error e => rw [hc] at h; cases h
        | ok cl =>
          rw [hc] at h
          obtain h2 := Except.ok.inj h
          simp at h2
    · rintro ⟨h, -⟩
      cases h

theorem render_passthrough_bytes {R G : Type} (c : Codec R G)
    (fs : List Char → Option Bytes) (format : List Char) (item : Item)
    (ctx : Option (RCtx G)) (bts : Bytes)
    (hg : geomOf ctx = none)
    (hs : (file_ext format).isSuffixOf item.path = true)
    (hf : fs item.path = some bts) :
    render c fs format (.inl item) ctx
      = .ok (bts, set_response_length bts.length
          (set_filename format (basename format item.path) ctx), []) := by
  have hg1 : geomOf (set_filename format (basename format item.path) ctx) = none := by
    rw [geomOf_set_filename]; exact hg
  simp [render, normalizeData, render_items, hg1, renderItems, renderItem,
    passthrough_decide, hs, hf]

/-- Raster-extent store used in the clip witnesses: `a.tif` covers the
unit box. -/
def rsW : List Char → Option Box :=
  fun p => if p = "a.tif".toList then some ⟨0, 1, 0, 1⟩ else none

/-- C1 (amended): the conversion loop passes an item through if and only
if no clip geometry is present and the item's stored path ends with the
target format's extension; in that case the resulting buffer is the
original file path itself and no codec operation is invoked, and `render`
of such a single asset returns the stored file's bytes verbatim. -/
theorem C1_passthrough {R G : Type} (c : Codec R G) (format : List Char)
    (geom : Option G) (item : Item) :
    (renderItem c format geom item = .ok (.filePath item.path, [])
      ↔ geom = none ∧ (file_ext format).isSuffixOf item.path = true)
    ∧ ∀ (fs : List Char → Option Bytes) (ctx : Option (RCtx G)) (bts : Bytes),
        geomOf ctx = none → (file_ext format).isSuffixOf item.path = true →
        fs item.path = some bts →
        render c fs format (.inl item) ctx
          = .ok (bts, set_response_length bts.length
              (set_filename format (basename format item.path) ctx), []) :=
  ⟨renderItem_passthrough_iff c format geom item,
   fun fs ctx bts hg hs hf => render_passthrough_bytes c fs format item ctx bts hg hs hf⟩

/-- C1 witness: a concrete passthrough (`x.tif` requested as `tif`) at
which the stored bytes `[3, 4]` come back verbatim with no codec event. -/
theorem C1_passthrough_witness :
    renderItem witCodec ("tif".toList) (none : Option Nat) ⟨"x.tif".toList⟩
        = .ok (.filePath ("x.tif".toList), [])
    ∧ render witCodec fsX ("tif".toList) (.inl ⟨"x.tif".toList⟩) none
        = .ok ([3, 4], none, []) := by
  have h := C1_passthrough witCodec ("tif".toList) (none : Option Nat) ⟨"x.tif".toList⟩
  exact ⟨h.1.mpr ⟨rfl, by decide⟩, h.2 fsX none [3, 4] rfl (by decide) rfl⟩

/-- C1 counterexample: the code checks `imgpath.endswith(file_ext)`, not
equality of the stored extension: the dotfile path `.tif` has extension
`""` (`os.path.splitext` yields no extension for a leading-dot basename),
yet with no geometry the decision is still Passthrough. -/
theorem C1_counterexample :
    passthrough_decide ("tif".toList) false (".tif".toList) = true
    ∧ (splitext (".tif".toList)).2 ≠ file_ext ("tif".toList)
    ∧ renderItem witCodec ("tif".toList) (none : Option Nat) ⟨".tif".toList⟩
        = .ok (.filePath (".tif".toList), []) :=
  ⟨by decide, by decide, by rfl⟩

/-- C2 (amended): with no geometry and a batch in which every item
requires conversion, `render` returns only the first item's converted
buffer, but every item of the batch is passed to the codec (each one is
copied); the non-first results are computed and discarded, not skipped. -/
theorem C2_converts_all {R G : Type} (c : Codec R G)
    (fs : List Char → Option Bytes) (format : List Char) (d : Item)
    (rest : List Item) (ctx : Option (RCtx G))
    (hg : geomOf ctx = none)
    (hall : ∀ it ∈ d :: rest, (file_ext format).isSuffixOf it.path = false) :
    render c fs format (.inr (d :: rest)) ctx
      = .ok (c.copy d.path,
             set_filename format (basename format d.path) ctx,
             (d :: rest).map (fun it => CodecEvent.copied it.path)) := by
  have hg1 : geomOf (set_filename format (basename format d.path) ctx) = none := by
    rw [geomOf_set_filename]; exact hg
  simp [render, normalizeData, render_items, hg1,
    renderItems_copy_all c format (d :: rest) hall]

/-- C2 witness: two convertible items; the body is the first item's copy,
the log shows both were copied. -/
theorem C2_converts_all_witness :
    render witCodec fsX ("tif".toList)
        (.inr [⟨"a.png".toList⟩, ⟨"b.png".toList⟩]) none
      = .ok (witCodec.copy ("a.png".toList), none,
             [.copied ("a.png".toList), .copied ("b.png".toList)]) :=
  C2_converts_all witCodec fsX ("tif".toList) ⟨"a.png".toList⟩
    [⟨"b.png".toList⟩] none rfl (by decide)

/-- C2 counterexample: rendering three items with a non-archive target
invokes the codec on the second (and third) item as well — the event
`copied "b.png"` occurs — contradicting "the remaining n-1 items are
never passed to the codec". -/
theorem C2_counterexample :
    render witCodec fsX ("tif".toList)
        (.inr [⟨"a.png".toList⟩, ⟨"b.png".toList⟩, ⟨"c.png".toList⟩]) none
      = .ok (9 :: ("a.png".toList).map Char.toNat, none,
             [.copied ("a.png".toList), .copied ("b.png".toList),
              .copied ("c.png".toList)])
    ∧ CodecEvent.copied ("b.png".toList)
        ∈ [CodecEvent.copied ("a.png".toList),
           CodecEvent.copied ("b.png".toList),
           CodecEvent.copied ("c.png".toList)] :=
  ⟨by rfl, by decide⟩

/-- C3: with a clip geometry whose intersection with the source raster's
extent is empty, the spec-modelled clip raises `ClipEmptyError`, the loop
propagates it, and both renderers abort with the error — no buffer (in
particular no zero-sized buffer) is returned. -/
theorem C3_clip_empty (rs : List Char → Option Box)
    (enc : Box → List Char → Bytes) (cp : List Char → Bytes)
    (fs : List Char → Option Bytes) (format arcdirname : List Char)
    (path : List Char) (box g : Box) (rest : List Item)
    (ctx : Option (RCtx Box))
    (hg : geomOf ctx = some g)
    (hr : rs path = some box)
    (he : (box.inter g).degenerate = true) :
    render (specCodec rs enc cp) fs format (.inr (⟨path⟩ :: rest)) ctx
      = .error .clipEmpty
    ∧ zipRender (specCodec rs enc cp) fs format arcdirname
        (.inr (⟨path⟩ :: rest)) ctx
      = .error .clipEmpty := by
  have hitem : renderItem (specCodec rs enc cp) format (some g) ⟨path⟩
      = .error .clipEmpty := by
    simp [renderItem, passthrough_decide, specCodec, hr, specClip, he]
  have hg1 : geomOf (set_filename format (basename format path) ctx) = some g := by
    rw [geomOf_set_filename]; exact hg
  constructor
  · simp [render, normalizeData, render_items, hg1, renderItems, hitem]
  · simp [zipRender, normalizeData, render_items, hg, renderItems, hitem]

/-- C3 witness: raster `a.tif` with extent `[0,1]×[0,1]` clipped by the
disjoint box `[5,6]×[5,6]`. -/
theorem C3_clip_empty_witness :
    render (specCodec rsW (fun _ _ => []) (fun _ => [])) fsX ("tif".toList)
        (.inr [⟨"a.tif".toList⟩])
        (some ⟨some ⟨some ⟨5, 6, 5, 6⟩⟩, none⟩)
      = .error .clipEmpty
    ∧ zipRender (specCodec rsW (fun _ _ => []) (fun _ => [])) fsX
        ("tif".toList) ("data".toList) (.inr [⟨"a.tif".toList⟩])
        (some ⟨some ⟨some ⟨5, 6, 5, 6⟩⟩, none⟩)
      = .error .clipEmpty :=
  C3_clip_empty rsW (fun _ _ => []) (fun _ => []) fsX ("tif".toList)
    ("data".toList) ("a.tif".toList) ⟨0, 1, 0, 1⟩ ⟨5, 6, 5, 6⟩ []
    (some ⟨some ⟨some ⟨5, 6, 5, 6⟩⟩, none⟩) rfl (by decide) (by decide)

/-- Filesystem with two distinct rasters for the archive theorems. -/
def fsAB : List Char → Option Bytes :=
  fun p =>
    if p = "p/a.tif".toList then some [5]
    else if p = "q/b.tif".toList then some [6]
    else none

/-- C4 (amended): duplicate entry names are not detected: when two items
produce the same archive name, both entries are written into the archive
in order under that same name, with their own contents, and no error is
raised. -/
theorem C4_duplicates_written (fs : List Char → Option Bytes)
    (format arcdirname : List Char) (r1 r2 : RenderedBuffer)
    (rs : List RenderedBuffer) (d1 d2 : Item) (ds : List Item)
    (es : List ZipEntry)
    (hdup : basename format d1.path = basename format d2.path)
    (hok : assembleEntries fs format arcdirname (r1 :: r2 :: rs)
        (d1 :: d2 :: ds) = .ok es) :
    (es.map (fun e => e.name)).take 2
        = [pathJoin arcdirname (basename format d1.path),
           pathJoin arcdirname (basename format d1.path)]
    ∧ (es.map (fun e => some e.content)).take 2
        = [bufferBytes fs r1, bufferBytes fs r2] := by
  unfold assembleEntries at hok
  cases h1 : zipEntryOf fs (pathJoin arcdirname (basename format d1.path)) r1 with
  | error e0 => rw [h1] at hok; cases hok
  | ok e1 =>
    rw [h1] at hok
    dsimp only at hok
    cases hrec : assembleEntries fs format arcdirname (r2 :: rs) (d2 :: ds) with
    | error e0 => rw [hrec] at hok; cases hok
    | ok es2 =>
      rw [hrec] at hok
      obtain rfl := Except.ok.inj hok
      unfold assembleEntries at hrec
      cases h2 : zipEntryOf fs (pathJoin arcdirname (basename format d2.path)) r2 with
      | error e0 => rw [h2] at hrec; cases hrec
      | ok e2 =>
        rw [h2] at hrec
        dsimp only at hrec
        cases h3 : assembleEntries fs format arcdirname rs ds with
        | error e0 => rw [h3] at hrec; cases hrec
        | ok es3 =>
          rw [h3] at hrec
          obtain rfl := Except.ok.inj hrec
          obtain ⟨hn1, hc1⟩ := zipEntryOf_ok h1
          obtain ⟨hn2, hc2⟩ := zipEntryOf_ok h2
          constructor
          · simp [hn1, hn2, hdup]
          · simp [← hc1, ← hc2]

/-- C4 witness: two passthrough files whose basenames collide; both are
written under `data/x.tif`, keeping their own contents. -/
theorem C4_duplicates_written_witness :
    (([⟨"data/x.tif".toList, [1]⟩, ⟨"data/x.tif".toList, [2]⟩] : List ZipEntry).map
        (fun e => e.name)).take 2
      = [pathJoin ("data".toList) (basename ("tif.zip".toList) ("a/x.tif".toList)),
         pathJoin ("data".toList) (basename ("tif.zip".toList) ("a/x.tif".toList))]
    ∧ (([⟨"data/x.tif".toList, [1]⟩, ⟨"data/x.tif".toList, [2]⟩] : List ZipEntry).map
        (fun e => some e.content)).take 2
      = [bufferBytes fsDup (.filePath ("a/x.tif".toList)),
         bufferBytes fsDup (.filePath ("b/x.tif".toList))] :=
  C4_duplicates_written fsDup ("tif.zip".toList) ("data".toList)
    (.filePath ("a/x.tif".toList)) (.filePath ("b/x.tif".toList)) []
    ⟨"a/x.tif".toList⟩ ⟨"b/x.tif".toList⟩ []
    [⟨"data/x.tif".toList, [1]⟩, ⟨"data/x.tif".toList, [2]⟩]
    (by decide) (by rfl)

/-- C4 counterexample: with two inputs named `a/x.tif` and `b/x.tif` the
archive render succeeds and writes two entries that share the name
`data/x.tif` — no `DuplicateEntryNameError` exists in the code, and
nothing is raised before or instead of writing. -/
theorem C4_counterexample :
    zipRender witCodec fsDup ("tif.zip".toList) ("data".toList)
        (.inr [⟨"a/x.tif".toList⟩, ⟨"b/x.tif".toList⟩]) none
      = .ok (zipFileBytes [⟨"data/x.tif".toList, [1]⟩, ⟨"data/x.tif".toList, [2]⟩],
             none, [])
    ∧ (⟨"data/x.tif".toList, [1]⟩ : ZipEntry).name
        = (⟨"data/x.tif".toList, [2]⟩ : ZipEntry).name :=
  ⟨by rfl, rfl⟩

/-- C5: a successful archive render writes exactly one entry per input
item, in input order, each named `arcdirname/` + the item's basename stem
+ the single-file extension, and returns the archive built from exactly
those entries. -/
theorem C5_archive_order {R G : Type} (c : Codec R G)
    (fs : List Char → Option Bytes) (format arcdirname : List Char)
    (items : List Item) (ctx : Option (RCtx G)) (es : List ZipEntry)
    (h : zipEntriesOf c fs format arcdirname (.inr items) ctx = .ok es) :
    es.map (fun e => e.name)
        = items.map (fun it => pathJoin arcdirname (basename format it.path))
    ∧ es.length = items.length
    ∧ (zipRender c fs format arcdirname (.inr items) ctx).map (fun x => x.1)
        = .ok (zipFileBytes es) := by
  unfold zipEntriesOf at h
  cases hr : render_items c format ctx (normalizeData (.inr items)) with
  | error e => rw [hr] at h; cases h
  | ok pr =>
    rw [hr] at h
    obtain ⟨bufs, evs⟩ := pr
    dsimp only at h
    have hlen : bufs.length = items.length :=
      renderItems_length c format (geomOf ctx) items bufs evs hr
    obtain ⟨hm, hl⟩ := assembleEntries_names fs format arcdirname bufs items es hlen h
    refine ⟨hm, hl, ?_⟩
    unfold zipRender
    dsimp only
    rw [hr]
    dsimp only
    rw [h]
    rfl

/-- C5 witness: two items, two entries, in order, named from the items. -/
theorem C5_archive_order_witness :
    ([⟨"data/a.tif".toList, [5]⟩, ⟨"data/b.tif".toList, [6]⟩] : List ZipEntry).map
        (fun e => e.name)
      = ([⟨"p/a.tif".toList⟩, ⟨"q/b.tif".toList⟩] : List Item).map
          (fun it => pathJoin ("data".toList) (basename ("tif.zip".toList) it.path))
    ∧ ([⟨"data/a.tif".toList, [5]⟩, ⟨"data/b.tif".toList, [6]⟩] : List ZipEntry).length
      = ([⟨"p/a.tif".toList⟩, ⟨"q/b.tif".toList⟩] : List Item).length
    ∧ (zipRender witCodec fsAB ("tif.zip".toList) ("data".toList)
        (.inr [⟨"p/a.tif".toList⟩, ⟨"q/b.tif".toList⟩]) none).map (fun x => x.1)
      = .ok (zipFileBytes [⟨"data/a.tif".toList, [5]⟩, ⟨"data/b.tif".toList, [6]⟩]) :=
  C5_archive_order witCodec fsAB ("tif.zip".toList) ("data".toList)
    [⟨"p/a.tif".toList⟩, ⟨"q/b.tif".toList⟩] none
    [⟨"data/a.tif".toList, [5]⟩, ⟨"data/b.tif".toList, [6]⟩] (by rfl)

/-- C6: when the renderer context carries a working response store, the
`Content-Length` header set by a successful archive render equals the
length of the returned archive buffer. -/
theorem C6_content_length {R G : Type} (c : Codec R G)
    (fs : List Char → Option Bytes) (format arcdirname : List Char)
    (data : Sum Item (List Item)) (v : Option (ViewCtx G))
    (hs : List (List Char × HVal)) (body : Bytes)
    (ctx' : Option (RCtx G)) (evs : List CodecEvent)
    (h : zipRender c fs format arcdirname data (some ⟨v, some (.store hs)⟩)
        = .ok (body, ctx', evs)) :
    headerOf ctx' ("Content-Length".toList) = some (.num body.length) := by
  unfold zipRender at h
  dsimp only at h
  cases hr : render_items c format (some ⟨v, some (.store hs)⟩) (normalizeData data) with
  | error e => rw [hr] at h; cases h
  | ok pr =>
    rw [hr] at h
    obtain ⟨bufs, evs0⟩ := pr
    dsimp only at h
    cases ha : assembleEntries fs format arcdirname bufs (normalizeData data) with
    | error e => rw [ha] at h; cases h
    | ok es =>
      rw [ha] at h
      dsimp only at h
      simp only [Except.ok.injEq, Prod.mk.injEq] at h
      obtain ⟨rfl, rfl, rfl⟩ := h
      simp [set_filename, set_response_length, headerOf, getHeader_setHeader_same]

/-- C6 witness: a concrete archive of two entries; the header equals the
archive's length. -/
theorem C6_content_length_witness :
    headerOf (set_response_length
        (zipFileBytes [(⟨"data/a.tif".toList, [5]⟩ : ZipEntry),
          ⟨"data/b.tif".toList, [6]⟩]).length
        (set_filename ("tif.zip".toList) ("data".toList)
          (some (⟨none, some (.store [])⟩ : RCtx Nat))))
      ("Content-Length".toList)
      = some (.num (zipFileBytes [(⟨"data/a.tif".toList, [5]⟩ : ZipEntry),
          ⟨"data/b.tif".toList, [6]⟩]).length) :=
  C6_content_length witCodec fsAB ("tif.zip".toList) ("data".toList)
    (.inr [⟨"p/a.tif".toList⟩, ⟨"q/b.tif".toList⟩]) none [] _ _ _ (by rfl)

/-- C7: evaluating the code on the asset `x.tif`: the non-archive GeoTIFF
render suggests the filename `x.tif.tif` — the target extension appears
twice, because `basename` already appends `file_ext` and `set_filename`
appends `'.' + format` again — while the archive render suggests
`data.tif.zip` (container name plus archive suffix, as the spec says). -/
theorem C7_filename_double_extension :
    render witCodec fsX ("tif".toList) (.inl ⟨"x.tif".toList⟩)
        (some (⟨none, some (.store [])⟩ : RCtx Nat))
      = .ok ([3, 4], some ⟨none, some (.store
          [("Content-Disposition".toList,
            .str ("attachment; filename=x.tif.tif".toList)),
           ("Content-Length".toList, .num 2)])⟩, [])
    ∧ zipRender witCodec fsX ("tif.zip".toList) ("data".toList)
        (.inl ⟨"x.tif".toList⟩) (some (⟨none, some (.store [])⟩ : RCtx Nat))
      = .ok (zipFileBytes [⟨"data/x.tif".toList, [3, 4]⟩],
             some ⟨none, some (.store
          [("Content-Disposition".toList,
            .str ("attachment; filename=data.tif.zip".toList)),
           ("Content-Length".toList,
            .num (zipFileBytes [⟨"data/x.tif".toList, [3, 4]⟩]).length)])⟩, []) :=
  ⟨by rfl, by rfl⟩

/-- C8: a written archive entry carries exactly the buffer's bytes: for a
file-path buffer the entry is written from the file at that path, for an
in-memory buffer from the bytes themselves; in both cases the entry name
is the requested archive name. -/
theorem C8_entry_contents (fs : List Char → Option Bytes) (arcname : List Char)
    (buf : RenderedBuffer) (e : ZipEntry)
    (h : zipEntryOf fs arcname buf = .ok e) :
    e.name = arcname ∧ some e.content = bufferBytes fs buf
    ∧ (∀ p, buf = .filePath p → fs p = some e.content)
    ∧ (∀ b, buf = .inMemory b → e.content = b) := by
  obtain ⟨hn, hc⟩ := zipEntryOf_ok h
  refine ⟨hn, hc, ?_, ?_⟩
  · rintro p rfl
    simpa [bufferBytes] using hc.symm
  · rintro b rfl
    have hcb := hc
    simp only [bufferBytes, Option.some.injEq] at hcb
    exact hcb

/-- C8 witness: a passthrough (file-path) buffer written as entry
`data/x.tif` with the stored file's bytes. -/
theorem C8_entry_contents_witness :
    (⟨"data/x.tif".toList, [3, 4]⟩ : ZipEntry).name = "data/x.tif".toList
    ∧ some (⟨"data/x.tif".toList, [3, 4]⟩ : ZipEntry).content
        = bufferBytes fsX (.filePath ("x.tif".toList)) :=
  ⟨(C8_entry_contents fsX ("data/x.tif".toList) (.filePath ("x.tif".toList))
      ⟨"data/x.tif".toList, [3, 4]⟩ (by rfl)).1,
   (C8_entry_contents fsX ("data/x.tif".toList) (.filePath ("x.tif".toList))
      ⟨"data/x.tif".toList, [3, 4]⟩ (by rfl)).2.1⟩

/-- C9: a bare dict input renders exactly like the one-item list input,
for both the single-buffer renderer and the archive renderer. -/
theorem C9_dict_as_singleton {R G : Type} (c : Codec R G)
    (fs : List Char → Option Bytes) (format arcdirname : List Char)
    (d : Item) (ctx : Option (RCtx G)) :
    render c fs format (.inl d) ctx = render c fs format (.inr [d]) ctx
    ∧ zipRender c fs format arcdirname (.inl d) ctx
        = zipRender c fs format arcdirname (.inr [d]) ctx :=
  ⟨rfl, rfl⟩

/-- C10: setting the response metadata never fails and never changes the
returned bytes: a missing context, a context without a response, and a
response that rejects item assignment all leave the context unchanged,
and two contexts with the same view (hence the same clip geometry)
produce the same body and codec events from both renderers. -/
theorem C10_metadata_never_raises {R G : Type} (c : Codec R G)
    (fs : List Char → Option Bytes) (format arcdirname nm : List Char)
    (len : Nat) (data : Sum Item (List Item)) (ctx1 ctx2 : Option (RCtx G))
    (h : viewOf ctx1 = viewOf ctx2) :
    (render c fs format data ctx1).map outBody
        = (render c fs format data ctx2).map outBody
    ∧ (zipRender c fs format arcdirname data ctx1).map outBody
        = (zipRender c fs format arcdirname data ctx2).map outBody
    ∧ set_filename format nm (none : Option (RCtx G)) = none
    ∧ set_response_length len (none : Option (RCtx G)) = none
    ∧ ∀ v : Option (ViewCtx G),
        set_filename format nm (some ⟨v, none⟩) = some ⟨v, none⟩
        ∧ set_response_length len (some ⟨v, none⟩) = some ⟨v, none⟩
        ∧ set_filename format nm (some ⟨v, some .rejecting⟩)
            = some ⟨v, some .rejecting⟩
        ∧ set_response_length len (some ⟨v, some .rejecting⟩)
            = some ⟨v, some .rejecting⟩ := by
  have hg := geomOf_eq_of_viewOf h
  exact ⟨render_map_outBody c fs format data ctx1 ctx2 hg,
    zipRender_map_outBody c fs format arcdirname data ctx1 ctx2 hg,
    rfl, rfl, fun v => ⟨rfl, rfl, rfl, rfl⟩⟩

/-- C10 witness: a missing context versus a rejecting response; bodies
and events agree and the metadata writes are skipped. -/
theorem C10_metadata_never_raises_witness :
    (render witCodec fsX ("tif".toList) (.inl ⟨"x.tif".toList⟩)
        (none : Option (RCtx Nat))).map outBody
      = (render witCodec fsX ("tif".toList) (.inl ⟨"x.tif".toList⟩)
          (some (⟨none, some .rejecting⟩ : RCtx Nat))).map outBody
    ∧ (zipRender witCodec fsX ("tif.zip".toList) ("data".toList)
        (.inl ⟨"x.tif".toList⟩) (none : Option (RCtx Nat))).map outBody
      = (zipRender witCodec fsX ("tif.zip".toList) ("data".toList)
          (.inl ⟨"x.tif".toList⟩)
          (some (⟨none, some .rejecting⟩ : RCtx Nat))).map outBody
    ∧ set_filename ("tif".toList) ("data".toList) (none : Option (RCtx Nat)) = none
    ∧ set_response_length 0 (none : Option (RCtx Nat)) = none
    ∧ ∀ v : Option (ViewCtx Nat),
        set_filename ("tif".toList) ("data".toList) (some ⟨v, none⟩) = some ⟨v, none⟩
        ∧ set_response_length 0 (some ⟨v, none⟩) = some ⟨v, none⟩
        ∧ set_filename ("tif".toList) ("data".toList) (some ⟨v, some .rejecting⟩)
            = some ⟨v, some .rejecting⟩
        ∧ set_response_length 0 (some ⟨v, some .rejecting⟩)
            = some ⟨v, some .rejecting⟩ :=
  C10_metadata_never_raises witCodec fsX ("tif".toList) ("data".toList)
    ("data".toList) 0 (.inl ⟨"x.tif".toList⟩) none
    (some ⟨none, some .rejecting⟩) rfl

end Spillway
